import Mathlib

/-!
# Event planner backend (`src/app.js`)

A shallow embedding of the Express application in `src/app.js`.

* The MongoDB collections behind the Mongoose models `User`, `Category` and
  `Event` are lists of documents inside an explicit `Store`; every request
  handler is a function `Store → Response × Store`.
* Document identifiers (`ObjectId`) are natural numbers; `req.user.id` and
  `doc.user.toString()` are their string forms and are compared for equality,
  which is equality of the identifiers.  Route parameters are identifiers.
* A request body is a record of optional fields: `none` is a field that is
  absent from the JSON body, which the handlers destructure to `undefined`.
  The field `categoryId` is a JSON value (`IdValue`): `null`, a string that
  does not cast to an `ObjectId`, or the string form of an identifier.  The
  other fields, when present, are values of the type of their schema path
  (`date` is a value that casts to a `Date`).
* `bcrypt` is a pair of functions carried by the environment; a JSON web token
  is a symbolic record of its payload, the key it was signed with and its
  expiry time.
* Mongoose behaviour used by the handlers: `required: true` rejects a missing
  value (and, for a `String` path, the empty string) when a document is saved;
  `unique: true` rejects a second document with the same value when it is
  inserted; `findById(undefined)` and `findById(null)` find nothing, and
  `findById` of a value that does not cast to an `ObjectId` throws a
  `CastError`, as does an update that sets an `ObjectId` path to such a value;
  `findByIdAndUpdate` writes the keys of the update that are defined (`null`
  included, updates run no validator) and leaves the other paths of the
  document as they are; `populate('category', 'name')` replaces the category
  reference by the referenced category's `_id` and `name`, or by `null` when
  no such category is stored.
-/

namespace EventPlanner

/-! ## Data model -/

/-- Document identifier (`ObjectId`). -/
abbrev Id := Nat

/-- The constant `JWT_SECRET` of `app.js`. -/
def JWT_SECRET : String := "your_jwt_secret"

/-- Document of `UserSchema`. -/
structure User where
  id : Id
  username : String
  email : String
  password : String
  createdAt : Nat
deriving DecidableEq, Repr

/-- Document of `CategorySchema`. -/
structure Category where
  id : Id
  name : String
  user : Id
  createdAt : Nat
deriving DecidableEq, Repr

/-- Document of `EventSchema`; `description` is the one path that is not
required; `category` is `none` once an update has stored `null` in it. -/
structure Event where
  id : Id
  name : String
  description : Option String
  date : Int
  time : String
  category : Option Id
  user : Id
  createdAt : Nat
deriving DecidableEq, Repr

/-- The three collections, and the next identifier a new document receives. -/
structure Store where
  users : List User
  categories : List Category
  events : List Event
  nextId : Nat
deriving DecidableEq, Repr

/-- The database before any request. -/
def Store.empty : Store := ⟨[], [], [], 0⟩

/-- A user document after `.select('-password')`. -/
structure Profile where
  id : Id
  username : String
  email : String
  createdAt : Nat
deriving DecidableEq, Repr

/-- What `populate('category', 'name')` puts in place of a category reference. -/
structure CategoryName where
  id : Id
  name : String
deriving DecidableEq, Repr

/-- An event document whose `category` path has been populated. -/
structure PopulatedEvent where
  id : Id
  name : String
  description : Option String
  date : Int
  time : String
  category : Option CategoryName
  user : Id
  createdAt : Nat
deriving DecidableEq, Repr

/-- A JSON web token: the payload `{ user: { id } }`, the key of its signature
and its expiry time (seconds). -/
structure Token where
  user : Id
  key : String
  exp : Nat
deriving DecidableEq, Repr

/-- The JSON value a body gives for `categoryId`: `null`, a string `raw` that
does not cast to an `ObjectId`, or the string form of the identifier `id`. -/
inductive IdValue where
  | null
  | invalid (raw : String)
  | objectId (id : Id)
deriving DecidableEq, Repr

/-- The fields a handler destructures from `req.body`. -/
structure Body where
  username : Option String
  email : Option String
  password : Option String
  name : Option String
  description : Option String
  date : Option Int
  time : Option String
  categoryId : Option IdValue
deriving DecidableEq, Repr

/-- A body with no field. -/
def Body.none : Body := ⟨.none, .none, .none, .none, .none, .none, .none, .none⟩

/-- A request: the `x-auth-token` header (`none` when `!token` holds) and the body. -/
structure Request where
  token : Option Token
  body : Body
deriving DecidableEq, Repr

/-- The value a handler passes to `res.json` or `res.send`. -/
inductive Payload where
  | msg (m : String)
  | text (t : String)
  | token (t : Token)
  | profile (u : Option Profile)
  | category (c : Option Category)
  | categories (cs : List Category)
  | event (e : Event)
  | populated (e : Option PopulatedEvent)
  | events (es : List PopulatedEvent)
deriving DecidableEq, Repr

/-- An HTTP response: status code and payload. -/
structure Response where
  status : Nat
  body : Payload
deriving DecidableEq, Repr

/-- What the process takes from outside the store: the clock (seconds), the
salt `bcrypt.genSalt(10)` draws, and `bcrypt.hash` / `bcrypt.compare`. -/
structure Env where
  now : Nat
  salt : Nat
  hash : String → Nat → String
  compare : String → String → Bool

/-! ## Collections -/

/-- Model of `Model.findOne(filter)`: the first document that matches. -/
def findOne {α : Type} (p : α → Bool) (docs : List α) : Option α :=
  docs.find? p

/-- Model of `Model.findByIdAndUpdate(id, update, { new: true })`: the first matching
document is rewritten; the result is the rewritten document, or `null`. -/
def findOneAndUpdate {α : Type} (p : α → Bool) (f : α → α) : List α → Option α × List α
  | [] => (none, [])
  | x :: xs =>
    if p x then (some (f x), f x :: xs)
    else ((findOneAndUpdate p f xs).1, x :: (findOneAndUpdate p f xs).2)

/-- Model of `Model.findByIdAndRemove(id)`: the first matching document is removed. -/
def findOneAndRemove {α : Type} (p : α → Bool) : List α → List α
  | [] => []
  | x :: xs => if p x then xs else x :: findOneAndRemove p xs

/-- The JavaScript test `if (categoryId)`: `undefined`, `null` and the empty
string are falsy. -/
def truthy : Option IdValue → Bool
  | none => false
  | some .null => false
  | some (.invalid raw) => raw != ""
  | some (.objectId _) => true

/-- The cast of a value to an `ObjectId` path: `null` stays `null`, a string
that does not cast throws the `CastError` the handlers catch. -/
def castObjectId : IdValue → Except String (Option Id)
  | .null => .ok none
  | .invalid _ => .error "CastError"
  | .objectId id => .ok (some id)

/-- The `required: true` validator of a `String` path. -/
def requiredString : Option String → Option String
  | some v => if v = "" then none else some v
  | none => none

/-! ## Tokens -/

/-- Model of `jwt.sign(payload, secret, { expiresIn: '1h' })`. -/
def jwtSign (user : Id) (secret : String) (now : Nat) : Token :=
  ⟨user, secret, now + 3600⟩

/-- Model of `jwt.verify(token, secret)`: the decoded `user.id`, or `none` when it throws
(signature made with another key, or token expired). -/
def jwtVerify (token : Token) (secret : String) (now : Nat) : Option Id :=
  if token.key = secret ∧ now < token.exp then some token.user else none

/-- The middleware `auth`: `next` is the rest of the route, run with `req.user.id`. -/
def auth (env : Env) (req : Request) (s : Store)
    (next : Id → Store → Response × Store) : Response × Store :=
  match req.token with
  | none => (⟨401, .msg "No token, authorization denied"⟩, s)
  | some token =>
    match jwtVerify token JWT_SECRET env.now with
    | some uid => next uid s
    | none => (⟨401, .msg "Token is not valid"⟩, s)

/-- The `catch` branch of every handler. -/
def serverError : Response := ⟨500, .text "Server error"⟩

/-! ## Authentication routes -/

/-- The hook `UserSchema.pre('save')`: the password of a new document is replaced by its hash. -/
def UserSchema_preSave (env : Env) (password : String) : String :=
  env.hash password env.salt

/-- Model of `new User({ username, email, password }).save()`: validation, the pre-save
hook, then the insert under the unique indexes on `username` and `email`. -/
def saveUser (env : Env) (body : Body) (s : Store) : Option (User × Store) :=
  match requiredString body.username, requiredString body.email,
      requiredString body.password with
  | some username, some email, some password =>
    if s.users.any (fun u => u.username == username || u.email == email) then none
    else
      let user : User :=
        ⟨s.nextId, username, email, UserSchema_preSave env password, env.now⟩
      some (user, { s with users := s.users ++ [user], nextId := s.nextId + 1 })
  | _, _, _ => none

/-- The query `User.findOne({ email })`. -/
def findUserByEmail (email : Option String) (users : List User) : Option User :=
  match email with
  | some e => findOne (fun u => u.email == e) users
  | none => none

/-- Handler of `POST /api/auth/register`. -/
def postAuthRegister (env : Env) (body : Body) (s : Store) : Response × Store :=
  match findUserByEmail body.email s.users with
  | some _ => (⟨400, .msg "User already exists"⟩, s)
  | none =>
    match saveUser env body s with
    | some (user, s') => (⟨200, .token (jwtSign user.id JWT_SECRET env.now)⟩, s')
    | none => (serverError, s)

/-- Handler of `POST /api/auth/login`. -/
def postAuthLogin (env : Env) (body : Body) (s : Store) : Response × Store :=
  match findUserByEmail body.email s.users with
  | none => (⟨400, .msg "Invalid credentials"⟩, s)
  | some user =>
    match body.password with
    | none => (serverError, s)
    | some password =>
      if env.compare password user.password then
        (⟨200, .token (jwtSign user.id JWT_SECRET env.now)⟩, s)
      else (⟨400, .msg "Invalid credentials"⟩, s)

/-- Projection `.select('-password')`. -/
def selectWithoutPassword (u : User) : Profile :=
  ⟨u.id, u.username, u.email, u.createdAt⟩

/-- Handler of `GET /api/auth/me` (after `auth`). -/
def getAuthMe (uid : Id) (s : Store) : Response × Store :=
  (⟨200, .profile ((findOne (fun u => u.id == uid) s.users).map selectWithoutPassword)⟩, s)

/-! ## Category routes -/

/-- The query `Category.findOne({ name, user: req.user.id })`. -/
def findCategoryByName (name : Option String) (uid : Id) (cs : List Category) :
    Option Category :=
  match name with
  | some n => findOne (fun c => c.name == n && c.user == uid) cs
  | none => none

/-- Model of `new Category({ name, user }).save()`. -/
def saveCategory (env : Env) (body : Body) (uid : Id) (s : Store) :
    Option (Category × Store) :=
  match requiredString body.name with
  | some name =>
    let category : Category := ⟨s.nextId, name, uid, env.now⟩
    some (category,
      { s with categories := s.categories ++ [category], nextId := s.nextId + 1 })
  | none => none

/-- Handler of `POST /api/categories` (after `auth`). -/
def postCategories (env : Env) (uid : Id) (body : Body) (s : Store) : Response × Store :=
  match findCategoryByName body.name uid s.categories with
  | some _ => (⟨400, .msg "Category already exists"⟩, s)
  | none =>
    match saveCategory env body uid s with
    | some (category, s') => (⟨200, .category (some category)⟩, s')
    | none => (serverError, s)

/-- Handler of `GET /api/categories` (after `auth`). -/
def getCategories (uid : Id) (s : Store) : Response × Store :=
  (⟨200, .categories (s.categories.filter (fun c => c.user == uid))⟩, s)

/-- The update `{ name }` of `PUT /api/categories/:id`. -/
def Category.update (body : Body) (c : Category) : Category :=
  { c with name := body.name.getD c.name }

/-- Handler of `PUT /api/categories/:id` (after `auth`). -/
def putCategory (uid : Id) (id : Id) (body : Body) (s : Store) : Response × Store :=
  match findOne (fun c => c.id == id) s.categories with
  | none => (⟨404, .msg "Category not found"⟩, s)
  | some category =>
    if category.user ≠ uid then (⟨401, .msg "Not authorized"⟩, s)
    else
      let r := findOneAndUpdate (fun c => c.id == id) (Category.update body) s.categories
      (⟨200, .category r.1⟩, { s with categories := r.2 })

/-- Handler of `DELETE /api/categories/:id` (after `auth`). -/
def deleteCategory (uid : Id) (id : Id) (s : Store) : Response × Store :=
  match findOne (fun c => c.id == id) s.categories with
  | none => (⟨404, .msg "Category not found"⟩, s)
  | some category =>
    if category.user ≠ uid then (⟨401, .msg "Not authorized"⟩, s)
    else
      (⟨200, .msg "Category removed"⟩,
        { s with categories := findOneAndRemove (fun c => c.id == id) s.categories })

/-! ## Event routes -/

/-- The lookup `Category.findById(categoryId)` followed by the test
`!category || category.user.toString() !== req.user.id`: `.error` when
`findById` throws, `.ok none` when the handler answers `Category not found`,
`.ok (some category)` when the test fails and the handler goes on. -/
def ownedCategory (categoryId : Option IdValue) (uid : Id) (cs : List Category) :
    Except String (Option Category) :=
  match categoryId with
  | none => .ok none
  | some value =>
    match castObjectId value with
    | .error err => .error err
    | .ok none => .ok none
    | .ok (some cid) =>
      match findOne (fun c => c.id == cid) cs with
      | none => .ok none
      | some category => if category.user ≠ uid then .ok none else .ok (some category)

/-- Model of `new Event({ name, description, date, time, category: categoryId,
user: req.user.id }).save()`. -/
def saveEvent (env : Env) (body : Body) (uid : Id) (s : Store) : Option (Event × Store) :=
  match requiredString body.name, body.date, requiredString body.time, body.categoryId with
  | some name, some date, some time, some (.objectId categoryId) =>
    let event : Event :=
      ⟨s.nextId, name, body.description, date, time, some categoryId, uid, env.now⟩
    some (event, { s with events := s.events ++ [event], nextId := s.nextId + 1 })
  | _, _, _, _ => none

/-- Handler of `POST /api/events` (after `auth`). -/
def postEvents (env : Env) (uid : Id) (body : Body) (s : Store) : Response × Store :=
  match ownedCategory body.categoryId uid s.categories with
  | .error _ => (serverError, s)
  | .ok none => (⟨404, .msg "Category not found"⟩, s)
  | .ok (some _) =>
    match saveEvent env body uid s with
    | some (event, s') => (⟨200, .event event⟩, s')
    | none => (serverError, s)

/-- Model of `.populate('category', 'name')` on one event. -/
def populate (cs : List Category) (e : Event) : PopulatedEvent :=
  ⟨e.id, e.name, e.description, e.date, e.time,
    (e.category.bind (fun cid => findOne (fun c => c.id == cid) cs)).map
      (fun c => ⟨c.id, c.name⟩),
    e.user, e.createdAt⟩

/-- One step of `.sort({ date: 1 })`: `e` is put before the first event that
is not earlier than it. -/
def insertByDate (e : Event) : List Event → List Event
  | [] => [e]
  | x :: xs => if e.date ≤ x.date then e :: x :: xs else x :: insertByDate e xs

/-- Model of `.sort({ date: 1 })`: ascending by `date`. -/
def sortByDate (es : List Event) : List Event :=
  es.foldr insertByDate []

/-- Handler of `GET /api/events` (after `auth`). -/
def getEvents (uid : Id) (s : Store) : Response × Store :=
  (⟨200, .events ((sortByDate (s.events.filter (fun e => e.user == uid))).map
      (populate s.categories))⟩, s)

/-- Handler of `GET /api/events/category/:categoryId` (after `auth`). -/
def getEventsByCategory (uid : Id) (categoryId : Id) (s : Store) : Response × Store :=
  match ownedCategory (some (.objectId categoryId)) uid s.categories with
  | .error _ => (serverError, s)
  | .ok none => (⟨404, .msg "Category not found"⟩, s)
  | .ok (some _) =>
    (⟨200, .events ((sortByDate (s.events.filter
        (fun e => e.category == some categoryId && e.user == uid))).map
          (populate s.categories))⟩, s)

/-- What the update of `PUT /api/events/:id` does to the path `category` for
the key `category: categoryId`: nothing when the key is `undefined`, `null` or
the identifier otherwise; `.error` when the value does not cast. -/
def castCategoryUpdate : Option IdValue → Except String (Option Id → Option Id)
  | none => .ok (fun previous => previous)
  | some value =>
    match castObjectId value with
    | .error err => .error err
    | .ok category => .ok (fun _ => category)

/-- The update `{ name, description, date, time, category: categoryId }` of
`PUT /api/events/:id`, `category` being the cast of its last key. -/
def Event.update (body : Body) (category : Option Id → Option Id) (e : Event) : Event :=
  { e with
    name := body.name.getD e.name
    description := body.description.orElse (fun _ => e.description)
    date := body.date.getD e.date
    time := body.time.getD e.time
    category := category e.category }

/-- The call `Event.findByIdAndUpdate(req.params.id, { ... }, { new: true })
.populate('category', 'name')` and the response that follows it. -/
def updateEvent (id : Id) (body : Body) (s : Store) : Response × Store :=
  match castCategoryUpdate body.categoryId with
  | .error _ => (serverError, s)
  | .ok category =>
    let r := findOneAndUpdate (fun e => e.id == id) (Event.update body category) s.events
    (⟨200, .populated (r.1.map (populate s.categories))⟩, { s with events := r.2 })

/-- Handler of `PUT /api/events/:id` (after `auth`). -/
def putEvent (uid : Id) (id : Id) (body : Body) (s : Store) : Response × Store :=
  match findOne (fun e => e.id == id) s.events with
  | none => (⟨404, .msg "Event not found"⟩, s)
  | some event =>
    if event.user ≠ uid then (⟨401, .msg "Not authorized"⟩, s)
    else if truthy body.categoryId then
      match ownedCategory body.categoryId uid s.categories with
      | .error _ => (serverError, s)
      | .ok none => (⟨404, .msg "Category not found"⟩, s)
      | .ok (some _) => updateEvent id body s
    else updateEvent id body s

/-- Handler of `DELETE /api/events/:id` (after `auth`). -/
def deleteEvent (uid : Id) (id : Id) (s : Store) : Response × Store :=
  match findOne (fun e => e.id == id) s.events with
  | none => (⟨404, .msg "Event not found"⟩, s)
  | some event =>
    if event.user ≠ uid then (⟨401, .msg "Not authorized"⟩, s)
    else
      (⟨200, .msg "Event removed"⟩,
        { s with events := findOneAndRemove (fun e => e.id == id) s.events })

/-! ## The application -/

/-- The routes registered on `app`. -/
inductive Route where
  | root
  | postAuthRegister
  | postAuthLogin
  | getAuthMe
  | postCategories
  | getCategories
  | putCategory (id : Id)
  | deleteCategory (id : Id)
  | postEvents
  | getEvents
  | getEventsByCategory (categoryId : Id)
  | putEvent (id : Id)
  | deleteEvent (id : Id)
deriving DecidableEq, Repr

/-- The routes registered with the `auth` middleware: every route under
`/api/categories` and `/api/events`, and `GET /api/auth/me`. -/
def Route.isProtected : Route → Bool
  | .root => false
  | .postAuthRegister => false
  | .postAuthLogin => false
  | .getAuthMe => true
  | .postCategories => true
  | .getCategories => true
  | .putCategory _ => true
  | .deleteCategory _ => true
  | .postEvents => true
  | .getEvents => true
  | .getEventsByCategory _ => true
  | .putEvent _ => true
  | .deleteEvent _ => true

/-- The application: one request on one route. -/
def app (env : Env) (route : Route) (req : Request) (s : Store) : Response × Store :=
  match route with
  | .root => (⟨200, .text "Event Planning API is running"⟩, s)
  | .postAuthRegister => postAuthRegister env req.body s
  | .postAuthLogin => postAuthLogin env req.body s
  | .getAuthMe => auth env req s (fun uid s => getAuthMe uid s)
  | .postCategories => auth env req s (fun uid s => postCategories env uid req.body s)
  | .getCategories => auth env req s (fun uid s => getCategories uid s)
  | .putCategory id => auth env req s (fun uid s => putCategory uid id req.body s)
  | .deleteCategory id => auth env req s (fun uid s => deleteCategory uid id s)
  | .postEvents => auth env req s (fun uid s => postEvents env uid req.body s)
  | .getEvents => auth env req s (fun uid s => getEvents uid s)
  | .getEventsByCategory categoryId =>
    auth env req s (fun uid s => getEventsByCategory uid categoryId s)
  | .putEvent id => auth env req s (fun uid s => putEvent uid id req.body s)
  | .deleteEvent id => auth env req s (fun uid s => deleteEvent uid id s)

/-- Every stored event references a stored category whose owner is the
event's owner. -/
def categoryRefsOwned (s : Store) : Prop :=
  ∀ e ∈ s.events, ∃ c ∈ s.categories, some c.id = e.category ∧ c.user = e.user

instance (s : Store) : Decidable (categoryRefsOwned s) := by
  unfold categoryRefsOwned; infer_instance

/-! ## Concrete data for the closed statements -/

/-- An environment: clock at 1000 s, salt 7, a `bcrypt.hash` that puts `h:` before
the password, and the `bcrypt.compare` that goes with it. -/
def sampleEnv : Env :=
  ⟨1000, 7, fun p _ => "h:" ++ p, fun p h => "h:" ++ p == h⟩

/-- User 1 (`alice`), user 2 (`bob`); category 10 of user 1 and category 20 of
user 2; event 100 of user 1 in category 10 and event 200 of user 2 in category 20. -/
def sampleStore : Store :=
  { users := [⟨1, "alice", "alice@example.com", "h:secret", 10⟩,
              ⟨2, "bob", "bob@example.com", "h:hunter2", 20⟩]
    categories := [⟨10, "Work", 1, 30⟩, ⟨20, "Home", 2, 40⟩]
    events := [⟨100, "Review", some "quarterly", 1704412800, "10:00", some 10, 1, 50⟩,
               ⟨200, "Dinner", none, 1704067200, "19:00", some 20, 2, 60⟩]
    nextId := 201 }

/-- The scenario of the specification, through `app` from the empty store:
register `u1`, log in, create the category `Work` with the token of the login,
create in it an event dated 2024-01-05 (1704412800 s) and then one dated
2024-01-01 (1704067200 s), and list the events. -/
def scenario : Response × Store :=
  let credentials : Body :=
    { Body.none with username := some "u1", email := some "u1@example.com",
                     password := some "password123" }
  let r1 := app sampleEnv .postAuthRegister ⟨none, credentials⟩ Store.empty
  let r2 := app sampleEnv .postAuthLogin ⟨none, credentials⟩ r1.2
  let token := match r2.1.body with
    | .token t => some t
    | _ => none
  let r3 := app sampleEnv .postCategories ⟨token, { Body.none with name := some "Work" }⟩ r2.2
  let work := match r3.1.body with
    | .category (some c) => some (IdValue.objectId c.id)
    | _ => none
  let r4 := app sampleEnv .postEvents
    ⟨token, { Body.none with name := some "first", date := some 1704412800,
                             time := some "09:00", categoryId := work }⟩ r3.2
  let r5 := app sampleEnv .postEvents
    ⟨token, { Body.none with name := some "second", date := some 1704067200,
                             time := some "09:00", categoryId := work }⟩ r4.2
  app sampleEnv .getEvents ⟨token, Body.none⟩ r5.2

/-! ## Lemmas on collections -/

theorem findOne_eq_none_iff {α : Type} (p : α → Bool) (docs : List α) :
    findOne p docs = none ↔ ∀ x ∈ docs, p x = false := by
  simp [findOne]

theorem findOne_isSome_of_mem {α : Type} (p : α → Bool) (docs : List α) (x : α)
    (hx : x ∈ docs) (hp : p x = true) : ∃ y, findOne p docs = some y := by
  cases h : findOne p docs with
  | some y => exact ⟨y, rfl⟩
  | none =>
    have := (findOne_eq_none_iff p docs).1 h x hx
    simp [hp] at this

theorem findOne_some_mem {α : Type} (p : α → Bool) (docs : List α) (x : α)
    (h : findOne p docs = some x) : x ∈ docs ∧ p x = true := by
  unfold findOne at h
  exact ⟨List.mem_of_find?_eq_some h, List.find?_some h⟩

theorem findOneAndUpdate_fst {α : Type} (p : α → Bool) (f : α → α) (docs : List α) :
    (findOneAndUpdate p f docs).1 = (findOne p docs).map f := by
  induction docs with
  | nil => rfl
  | cons x xs ih =>
    by_cases hx : p x = true
    · simp [findOneAndUpdate, findOne, hx]
    · simp only [findOne] at ih
      simp [findOneAndUpdate, findOne, hx, ih]

theorem findOne_findOneAndUpdate {α : Type} (p : α → Bool) (f : α → α)
    (hf : ∀ x, p (f x) = p x) (docs : List α) :
    findOne p (findOneAndUpdate p f docs).2 = (findOne p docs).map f := by
  induction docs with
  | nil => rfl
  | cons x xs ih =>
    by_cases hx : p x = true
    · simp [findOneAndUpdate, findOne, hx, hf]
    · simp only [findOne] at ih
      simp [findOneAndUpdate, findOne, hx, ih]

theorem findOneAndUpdate_cons_pos {α : Type} (p : α → Bool) (f : α → α) (x : α)
    (xs : List α) (h : p x = true) :
    findOneAndUpdate p f (x :: xs) = (some (f x), f x :: xs) := by
  simp [findOneAndUpdate, h]

theorem findOneAndUpdate_cons_neg {α : Type} (p : α → Bool) (f : α → α) (x : α)
    (xs : List α) (h : p x = false) :
    findOneAndUpdate p f (x :: xs)
      = ((findOneAndUpdate p f xs).1, x :: (findOneAndUpdate p f xs).2) := by
  simp [findOneAndUpdate, h]

theorem findOneAndRemove_cons_pos {α : Type} (p : α → Bool) (x : α) (xs : List α)
    (h : p x = true) : findOneAndRemove p (x :: xs) = xs := by
  simp [findOneAndRemove, h]

theorem findOneAndRemove_cons_neg {α : Type} (p : α → Bool) (x : α) (xs : List α)
    (h : p x = false) : findOneAndRemove p (x :: xs) = x :: findOneAndRemove p xs := by
  simp [findOneAndRemove, h]

theorem findOneAndUpdate_length {α : Type} (p : α → Bool) (f : α → α) (docs : List α) :
    (findOneAndUpdate p f docs).2.length = docs.length := by
  induction docs with
  | nil => rfl
  | cons x xs ih =>
    cases hx : p x with
    | true => rw [findOneAndUpdate_cons_pos p f x xs hx]; rfl
    | false => rw [findOneAndUpdate_cons_neg p f x xs hx]; simp [ih]

theorem mem_findOneAndUpdate {α : Type} (p : α → Bool) (f : α → α) (docs : List α)
    (y : α) (hy : y ∈ (findOneAndUpdate p f docs).2) :
    y ∈ docs ∨ ∃ x, findOne p docs = some x ∧ y = f x := by
  induction docs with
  | nil => simp [findOneAndUpdate] at hy
  | cons x xs ih =>
    cases hx : p x with
    | true =>
      rw [findOneAndUpdate_cons_pos p f x xs hx] at hy
      rcases List.mem_cons.1 hy with h | h
      · exact Or.inr ⟨x, by simp [findOne, hx], h⟩
      · exact Or.inl (List.mem_cons_of_mem _ h)
    | false =>
      rw [findOneAndUpdate_cons_neg p f x xs hx] at hy
      rcases List.mem_cons.1 hy with h | h
      · exact Or.inl (h ▸ List.mem_cons_self _ _)
      · rcases ih h with h' | ⟨z, hz, hyz⟩
        · exact Or.inl (List.mem_cons_of_mem _ h')
        · refine Or.inr ⟨z, ?_, hyz⟩
          simp only [findOne] at hz
          simp [findOne, hx, hz]

theorem mem_findOneAndUpdate_of_mem {α : Type} (p : α → Bool) (f : α → α) (docs : List α)
    (x : α) (hx : x ∈ docs) :
    x ∈ (findOneAndUpdate p f docs).2 ∨
      (p x = true ∧ f x ∈ (findOneAndUpdate p f docs).2) := by
  induction docs with
  | nil => simp at hx
  | cons d ds ih =>
    cases hd : p d with
    | true =>
      rw [findOneAndUpdate_cons_pos p f d ds hd]
      rcases List.mem_cons.1 hx with h | h
      · exact Or.inr ⟨h ▸ hd, h ▸ List.mem_cons_self _ _⟩
      · exact Or.inl (List.mem_cons_of_mem _ h)
    | false =>
      rw [findOneAndUpdate_cons_neg p f d ds hd]
      rcases List.mem_cons.1 hx with h | h
      · exact Or.inl (h ▸ List.mem_cons_self _ _)
      · rcases ih h with h' | ⟨h1, h2⟩
        · exact Or.inl (List.mem_cons_of_mem _ h')
        · exact Or.inr ⟨h1, List.mem_cons_of_mem _ h2⟩

theorem mem_of_mem_findOneAndRemove {α : Type} (p : α → Bool) (docs : List α) (y : α)
    (hy : y ∈ findOneAndRemove p docs) : y ∈ docs := by
  induction docs with
  | nil => simp [findOneAndRemove] at hy
  | cons x xs ih =>
    cases hx : p x with
    | true =>
      rw [findOneAndRemove_cons_pos p x xs hx] at hy
      exact List.mem_cons_of_mem _ hy
    | false =>
      rw [findOneAndRemove_cons_neg p x xs hx] at hy
      rcases List.mem_cons.1 hy with h | h
      · exact h ▸ List.mem_cons_self _ _
      · exact List.mem_cons_of_mem _ (ih h)

theorem mem_findOneAndRemove_of_mem {α : Type} (p : α → Bool) (docs : List α) (x : α)
    (hx : x ∈ docs) (hp : p x = false) : x ∈ findOneAndRemove p docs := by
  induction docs with
  | nil => simp at hx
  | cons d ds ih =>
    cases hd : p d with
    | true =>
      rw [findOneAndRemove_cons_pos p d ds hd]
      rcases List.mem_cons.1 hx with h | h
      · rw [h, hd] at hp
        exact absurd hp (by decide)
      · exact h
    | false =>
      rw [findOneAndRemove_cons_neg p d ds hd]
      rcases List.mem_cons.1 hx with h | h
      · exact h ▸ List.mem_cons_self _ _
      · exact List.mem_cons_of_mem _ (ih h)

/-! ## C1: a record of another user is neither updated nor deleted -/

/-- C1. When `:id` names a stored category (resp. event) whose owner is not the
authenticated user, `PUT` and `DELETE` on it answer 401 `Not authorized` and
the store is the one before the request. -/
theorem foreign_record_update_delete_forbidden (s : Store) (uid id : Id) (body : Body) :
    (∀ c, findOne (fun c => c.id == id) s.categories = some c → c.user ≠ uid →
      putCategory uid id body s = (⟨401, .msg "Not authorized"⟩, s) ∧
      deleteCategory uid id s = (⟨401, .msg "Not authorized"⟩, s)) ∧
    (∀ e, findOne (fun e => e.id == id) s.events = some e → e.user ≠ uid →
      putEvent uid id body s = (⟨401, .msg "Not authorized"⟩, s) ∧
      deleteEvent uid id s = (⟨401, .msg "Not authorized"⟩, s)) := by
  refine ⟨?_, ?_⟩
  · intro c hc hne
    simp [putCategory, deleteCategory, hc, hne]
  · intro e he hne
    simp [putEvent, deleteEvent, he, hne]

/-- C1 at `sampleStore`: user 2 on category 10 and on event 100 of user 1. -/
theorem foreign_record_update_delete_forbidden_witness :
    (putCategory 2 10 { Body.none with name := some "Mine" } sampleStore
        = (⟨401, .msg "Not authorized"⟩, sampleStore) ∧
      deleteCategory 2 10 sampleStore = (⟨401, .msg "Not authorized"⟩, sampleStore)) ∧
    (putEvent 2 100 { Body.none with name := some "Mine" } sampleStore
        = (⟨401, .msg "Not authorized"⟩, sampleStore) ∧
      deleteEvent 2 100 sampleStore = (⟨401, .msg "Not authorized"⟩, sampleStore)) :=
  ⟨(foreign_record_update_delete_forbidden sampleStore 2 10
      { Body.none with name := some "Mine" }).1 ⟨10, "Work", 1, 30⟩ (by decide) (by decide),
   (foreign_record_update_delete_forbidden sampleStore 2 100
      { Body.none with name := some "Mine" }).2
      ⟨100, "Review", some "quarterly", 1704412800, "10:00", some 10, 1, 50⟩
      (by decide) (by decide)⟩

/-! ## C2: no event in a category of another user -/

/-- C2 as stated fails: the `categoryId` `"abc"` is the identifier of no
stored category, and `POST /api/events` answers 500 `Server error`, not 404,
because `Category.findById` throws on a value that does not cast. -/
theorem postEvents_uncastable_category_500 :
    (∀ c ∈ sampleStore.categories, IdValue.invalid "abc" ≠ .objectId c.id) ∧
    postEvents sampleEnv 2
        { Body.none with name := some "Party", date := some 1704067200,
                         time := some "20:00", categoryId := some (.invalid "abc") }
        sampleStore
      = (⟨500, .text "Server error"⟩, sampleStore) := by
  decide

/-- C2 amended. `POST /api/events` answers 404 `Category not found` when
`categoryId` is absent, is `null`, or is an identifier that names no stored
category or a category whose owner is not the authenticated user; it answers
500 `Server error` when `categoryId` does not cast to an identifier; in both
cases the store, so the set of stored events, is unchanged. -/
theorem postEvents_foreign_category_not_found (env : Env) (s : Store) (uid : Id)
    (body : Body) :
    ((body.categoryId = none ∨ body.categoryId = some .null ∨
        ∃ cid, body.categoryId = some (.objectId cid) ∧
          ∀ c, findOne (fun c => c.id == cid) s.categories = some c → c.user ≠ uid) →
      postEvents env uid body s = (⟨404, .msg "Category not found"⟩, s) ∧
      (postEvents env uid body s).2.events = s.events) ∧
    (∀ raw, body.categoryId = some (.invalid raw) →
      postEvents env uid body s = (⟨500, .text "Server error"⟩, s) ∧
      (postEvents env uid body s).2.events = s.events) := by
  refine ⟨?_, ?_⟩
  · intro h
    have hnone : ownedCategory body.categoryId uid s.categories = .ok none := by
      rcases h with h | h | ⟨cid, h, hown⟩
      · simp [ownedCategory, h]
      · simp [ownedCategory, h, castObjectId]
      · cases hf : findOne (fun c => c.id == cid) s.categories with
        | none => simp [ownedCategory, h, castObjectId, hf]
        | some c => simp [ownedCategory, h, castObjectId, hf, hown c hf]
    simp [postEvents, hnone]
  · intro raw h
    have herr : ownedCategory body.categoryId uid s.categories = .error "CastError" := by
      simp [ownedCategory, h, castObjectId]
    simp [postEvents, herr, serverError]

/-- C2 amended at `sampleStore`: user 2 names category 10 of user 1 and gets
404; user 2 sends `"abc"` and gets 500. -/
theorem postEvents_foreign_category_not_found_witness :
    postEvents sampleEnv 2
        { Body.none with name := some "Party", date := some 1704067200,
                         time := some "20:00", categoryId := some (.objectId 10) }
        sampleStore
      = (⟨404, .msg "Category not found"⟩, sampleStore) ∧
    postEvents sampleEnv 2
        { Body.none with name := some "Party", date := some 1704067200,
                         time := some "20:00", categoryId := some (.invalid "abc") }
        sampleStore
      = (⟨500, .text "Server error"⟩, sampleStore) :=
  ⟨((postEvents_foreign_category_not_found sampleEnv sampleStore 2
        { Body.none with name := some "Party", date := some 1704067200,
                         time := some "20:00", categoryId := some (.objectId 10) }).1
      (Or.inr (Or.inr ⟨10, rfl, by
        intro c hc
        have hcat : (⟨10, "Work", 1, 30⟩ : Category) = c := by
          simpa [findOne, sampleStore] using hc
        subst hcat
        decide⟩))).1,
   ((postEvents_foreign_category_not_found sampleEnv sampleStore 2
        { Body.none with name := some "Party", date := some 1704067200,
                         time := some "20:00", categoryId := some (.invalid "abc") }).2
      "abc" rfl).1⟩

/-! ## C4: a request without token never reaches a protected handler -/

/-- C4. On a request without `x-auth-token`, `auth` answers 401
`No token, authorization denied` whatever the rest of the route is (`next` is
not run), so every protected route gives that answer in every store and
leaves the store as it is. -/
theorem auth_no_token_rejects (env : Env) (req : Request) (s : Store)
    (h : req.token = none) :
    (∀ next, auth env req s next = (⟨401, .msg "No token, authorization denied"⟩, s)) ∧
    (∀ route : Route, route.isProtected = true →
      app env route req s = (⟨401, .msg "No token, authorization denied"⟩, s)) := by
  have hauth : ∀ next,
      auth env req s next = (⟨401, .msg "No token, authorization denied"⟩, s) := by
    intro next
    simp [auth, h]
  refine ⟨hauth, ?_⟩
  intro route hroute
  cases route <;> first | exact absurd hroute (by decide) | exact hauth _

/-- C4 at `sampleStore`: a `DELETE /api/events/100` without token. -/
theorem auth_no_token_rejects_witness :
    app sampleEnv (.deleteEvent 100) ⟨none, Body.none⟩ sampleStore
      = (⟨401, .msg "No token, authorization denied"⟩, sampleStore) :=
  (auth_no_token_rejects sampleEnv ⟨none, Body.none⟩ sampleStore rfl).2
    (.deleteEvent 100) rfl

/-! ## C5: registration with a stored email -/

/-- C5. When a stored user has the email of the request, `POST
/api/auth/register` answers 400 `User already exists` (a message, not a
token) and the store, so the stored users, is unchanged, whatever the other
fields of the body are. -/
theorem register_existing_email_conflict (env : Env) (s : Store) (body : Body)
    (email : String) (he : body.email = some email)
    (hex : ∃ u ∈ s.users, u.email = email) :
    postAuthRegister env body s = (⟨400, .msg "User already exists"⟩, s) := by
  obtain ⟨u, hu, hue⟩ := hex
  obtain ⟨y, hy⟩ := findOne_isSome_of_mem (fun u => u.email == email) s.users u hu
    (by simp [hue])
  simp [postAuthRegister, findUserByEmail, he, hy]

/-- C5 at `sampleStore`: a second registration with `alice@example.com`. -/
theorem register_existing_email_conflict_witness :
    postAuthRegister sampleEnv
        { Body.none with username := some "carol", email := some "alice@example.com",
                         password := some "pw" } sampleStore
      = (⟨400, .msg "User already exists"⟩, sampleStore) :=
  register_existing_email_conflict sampleEnv sampleStore _ "alice@example.com" rfl
    ⟨⟨1, "alice", "alice@example.com", "h:secret", 10⟩, by decide, rfl⟩

/-! ## C7: login failures -/

/-- C7. `POST /api/auth/login` answers 400 `Invalid credentials`, without
token and without touching the store, when the user found for the email has a
hash the password does not match, and it gives the same answer when no stored
user has the email. -/
theorem login_invalid_credentials (env : Env) (s : Store) (body : Body) (email : String)
    (he : body.email = some email) :
    (∀ u password, findOne (fun u => u.email == email) s.users = some u →
      body.password = some password → env.compare password u.password = false →
      postAuthLogin env body s = (⟨400, .msg "Invalid credentials"⟩, s)) ∧
    ((∀ u ∈ s.users, u.email ≠ email) →
      postAuthLogin env body s = (⟨400, .msg "Invalid credentials"⟩, s)) := by
  refine ⟨?_, ?_⟩
  · intro u password hu hp hcmp
    simp [postAuthLogin, findUserByEmail, he, hu, hp, hcmp]
  · intro hno
    have hnone : findOne (fun u => u.email == email) s.users = none :=
      (findOne_eq_none_iff _ _).2 (fun u hu => by simpa using hno u hu)
    simp [postAuthLogin, findUserByEmail, he, hnone]

/-- C7 at `sampleStore`: a wrong password for `alice@example.com`, and an
email nobody registered, get equal responses. -/
theorem login_invalid_credentials_witness :
    postAuthLogin sampleEnv
        { Body.none with email := some "alice@example.com", password := some "guess" }
        sampleStore
      = (⟨400, .msg "Invalid credentials"⟩, sampleStore) ∧
    postAuthLogin sampleEnv
        { Body.none with email := some "carol@example.com", password := some "guess" }
        sampleStore
      = (⟨400, .msg "Invalid credentials"⟩, sampleStore) :=
  ⟨(login_invalid_credentials sampleEnv sampleStore
      { Body.none with email := some "alice@example.com", password := some "guess" }
      "alice@example.com" rfl).1
      ⟨1, "alice", "alice@example.com", "h:secret", 10⟩ "guess" (by decide) rfl (by decide),
   (login_invalid_credentials sampleEnv sampleStore
      { Body.none with email := some "carol@example.com", password := some "guess" }
      "carol@example.com" rfl).2 (by decide)⟩

/-! ## C10: the profile of the authenticated user -/

/-- C10 as stated fails: with a valid token for user 5 and no stored user 5,
`GET /api/auth/me` answers 200 with `null`, not 404. -/
theorem getAuthMe_missing_user_not_404 :
    (∀ u ∈ Store.empty.users, u.id ≠ 5) ∧
    app sampleEnv .getAuthMe ⟨some (jwtSign 5 JWT_SECRET 1000), Body.none⟩ Store.empty
      = (⟨200, .profile none⟩, Store.empty) ∧
    (app sampleEnv .getAuthMe ⟨some (jwtSign 5 JWT_SECRET 1000), Body.none⟩
      Store.empty).1.status ≠ 404 := by
  refine ⟨?_, ?_, ?_⟩
  · intro u hu
    simp [Store.empty] at hu
  · decide
  · decide

/-- C10 amended. `GET /api/auth/me` answers 200 in every store: with the
document of the user the identity names, the password left out, when there is
one (it is a stored user with that id), and with `null` when no stored user
has that id. -/
theorem getAuthMe_profile_or_null (s : Store) (uid : Id) :
    (∀ u, findOne (fun u => u.id == uid) s.users = some u →
      u ∈ s.users ∧ u.id = uid ∧
      getAuthMe uid s = (⟨200, .profile (some ⟨u.id, u.username, u.email, u.createdAt⟩)⟩, s)) ∧
    ((∃ u ∈ s.users, u.id = uid) → ∃ u, findOne (fun u => u.id == uid) s.users = some u) ∧
    ((∀ u ∈ s.users, u.id ≠ uid) → getAuthMe uid s = (⟨200, .profile none⟩, s)) := by
  refine ⟨?_, ?_, ?_⟩
  · intro u hu
    obtain ⟨hmem, hid⟩ := findOne_some_mem _ _ _ hu
    refine ⟨hmem, by simpa using hid, ?_⟩
    simp [getAuthMe, hu, selectWithoutPassword]
  · rintro ⟨u, hu, hid⟩
    exact findOne_isSome_of_mem _ _ u hu (by simp [hid])
  · intro hno
    have hnone : findOne (fun u => u.id == uid) s.users = none :=
      (findOne_eq_none_iff _ _).2 (fun u hu => by simpa using hno u hu)
    simp [getAuthMe, hnone]

/-- C10 amended at `sampleStore`: the profile of user 2, and `null` for user 5. -/
theorem getAuthMe_profile_or_null_witness :
    getAuthMe 2 sampleStore
      = (⟨200, .profile (some ⟨2, "bob", "bob@example.com", 20⟩)⟩, sampleStore) ∧
    getAuthMe 5 sampleStore = (⟨200, .profile none⟩, sampleStore) :=
  ⟨((getAuthMe_profile_or_null sampleStore 2).1
      ⟨2, "bob", "bob@example.com", "h:hunter2", 20⟩ (by decide)).2.2,
   (getAuthMe_profile_or_null sampleStore 5).2.2 (by decide)⟩

/-! ## C3: the listing of events -/

theorem insertByDate_perm (e : Event) (es : List Event) :
    (insertByDate e es).Perm (e :: es) := by
  induction es with
  | nil => simp [insertByDate]
  | cons x xs ih =>
    unfold insertByDate
    split
    · exact List.Perm.refl _
    · exact (List.Perm.cons x ih).trans (List.Perm.swap e x xs)

theorem sortByDate_perm (es : List Event) : (sortByDate es).Perm es := by
  induction es with
  | nil => simp [sortByDate]
  | cons x xs ih =>
    have h : sortByDate (x :: xs) = insertByDate x (sortByDate xs) := rfl
    rw [h]
    exact (insertByDate_perm x _).trans (List.Perm.cons x ih)

theorem insertByDate_sorted (e : Event) (es : List Event)
    (h : es.Pairwise (fun a b => a.date ≤ b.date)) :
    (insertByDate e es).Pairwise (fun a b => a.date ≤ b.date) := by
  induction es with
  | nil => simp [insertByDate]
  | cons x xs ih =>
    rw [List.pairwise_cons] at h
    unfold insertByDate
    split
    · rename_i hle
      refine List.pairwise_cons.2 ⟨?_, List.pairwise_cons.2 h⟩
      intro y hy
      rcases List.mem_cons.1 hy with rfl | hy
      · exact hle
      · exact le_trans hle (h.1 y hy)
    · rename_i hlt
      refine List.pairwise_cons.2 ⟨?_, ih h.2⟩
      intro y hy
      rcases List.mem_cons.1 ((insertByDate_perm e xs).mem_iff.1 hy) with rfl | hy
      · exact le_of_lt (not_le.1 hlt)
      · exact h.1 y hy

theorem sortByDate_sorted (es : List Event) :
    (sortByDate es).Pairwise (fun a b => a.date ≤ b.date) := by
  induction es with
  | nil => simp [sortByDate]
  | cons x xs ih => exact insertByDate_sorted x _ ih

/-- C3. In every store and for every authenticated user, `GET /api/events`
answers 200 with the populated form of a list of events that is a permutation
of the stored events of that user and is in non-decreasing order of `date`
(so is the list of the response); in the scenario of the specification the
dates of the response are 2024-01-01, 2024-01-05. -/
theorem getEvents_sorted_permutation (s : Store) (uid : Id) :
    (∃ es : List Event,
      getEvents uid s = (⟨200, .events (es.map (populate s.categories))⟩, s) ∧
      es.Perm (s.events.filter (fun e => e.user == uid)) ∧
      es.Pairwise (fun a b => a.date ≤ b.date) ∧
      (es.map (populate s.categories)).Pairwise (fun a b => a.date ≤ b.date)) ∧
    (∃ a b, scenario.1 = ⟨200, .events [a, b]⟩ ∧
      a.date = 1704067200 ∧ b.date = 1704412800) := by
  refine ⟨⟨sortByDate (s.events.filter (fun e => e.user == uid)), rfl,
    sortByDate_perm _, sortByDate_sorted _, ?_⟩, ?_⟩
  · rw [List.pairwise_map]
    exact sortByDate_sorted _
  · exact ⟨⟨3, "second", none, 1704067200, "09:00", some ⟨1, "Work"⟩, 0, 1000⟩,
      ⟨2, "first", none, 1704412800, "09:00", some ⟨1, "Work"⟩, 0, 1000⟩,
      by decide, rfl, rfl⟩

/-! ## C6: the token of a registration -/

/-- C6 as stated fails: the email `carol@example.com` is not stored, the body
has the three fields, and the registration answers 500 without token and
without new user, because the username `alice` is taken (`unique: true`). -/
theorem register_taken_username_fails :
    (∀ u ∈ sampleStore.users, u.email ≠ "carol@example.com") ∧
    postAuthRegister sampleEnv
        { Body.none with username := some "alice", email := some "carol@example.com",
                         password := some "pw" } sampleStore
      = (⟨500, .text "Server error"⟩, sampleStore) := by
  refine ⟨by decide, by decide⟩

/-- C6 amended. A registration whose username, email and password are
present and not empty, and whose email and username are those of no stored
user, answers 200 with a token; the store gains exactly one user, the only one
with that email, holding the hash of the password; and `auth`, given that
token before its expiry one hour later, runs the route with the id of that user. -/
theorem register_token_identity (env : Env) (s : Store) (body : Body)
    (username email password : String)
    (hu : body.username = some username) (he : body.email = some email)
    (hp : body.password = some password)
    (hne : username ≠ "" ∧ email ≠ "" ∧ password ≠ "")
    (hfresh : ∀ u ∈ s.users, u.email ≠ email ∧ u.username ≠ username) :
    ∃ (user : User) (token : Token),
      postAuthRegister env body s
        = (⟨200, .token token⟩,
            { s with users := s.users ++ [user], nextId := s.nextId + 1 }) ∧
      user.username = username ∧ user.email = email ∧
      user.password = env.hash password env.salt ∧
      (s.users ++ [user]).filter (fun u => u.email == email) = [user] ∧
      (∀ (later : Env) (req : Request) (s' : Store) (next : Id → Store → Response × Store),
        req.token = some token → later.now < env.now + 3600 →
        auth later req s' next = next user.id s') := by
  have hnone : findOne (fun u => u.email == email) s.users = none :=
    (findOne_eq_none_iff _ _).2 (fun u hu => by simpa using (hfresh u hu).1)
  have hany : s.users.any (fun u => u.username == username || u.email == email) = false := by
    rw [List.any_eq_false]
    intro u hu
    simp [(hfresh u hu).1, (hfresh u hu).2]
  have hfilter : s.users.filter (fun u => u.email == email) = [] := by
    rw [List.filter_eq_nil_iff]
    intro u hu
    simpa using (hfresh u hu).1
  refine ⟨⟨s.nextId, username, email, env.hash password env.salt, env.now⟩,
    jwtSign s.nextId JWT_SECRET env.now, ?_, rfl, rfl, rfl, ?_, ?_⟩
  · simp [postAuthRegister, findUserByEmail, he, hnone, saveUser, hu, hp, requiredString,
      hne.1, hne.2.1, hne.2.2, hany, UserSchema_preSave]
  · simp [List.filter_append, hfilter]
  · intro later req s' next hreq hlt
    simp [auth, hreq, jwtVerify, jwtSign, hlt]

/-- C6 amended at `sampleStore`: `carol` registers and gets a token for the new user 201. -/
theorem register_token_identity_witness :
    ∃ (user : User) (token : Token),
      postAuthRegister sampleEnv
          { Body.none with username := some "carol", email := some "carol@example.com",
                           password := some "pw" } sampleStore
        = (⟨200, .token token⟩,
            { sampleStore with users := sampleStore.users ++ [user],
                               nextId := sampleStore.nextId + 1 }) ∧
      user.username = "carol" ∧ user.email = "carol@example.com" ∧
      user.password = sampleEnv.hash "pw" sampleEnv.salt ∧
      (sampleStore.users ++ [user]).filter (fun u => u.email == "carol@example.com")
        = [user] ∧
      (∀ (later : Env) (req : Request) (s' : Store) (next : Id → Store → Response × Store),
        req.token = some token → later.now < sampleEnv.now + 3600 →
        auth later req s' next = next user.id s') :=
  register_token_identity sampleEnv sampleStore _ "carol" "carol@example.com" "pw"
    rfl rfl rfl (by decide) (by decide)

/-! ## C8: the update of an event is partial -/

theorem putEvent_of_owned (s : Store) (uid id : Id) (body : Body) (e : Event)
    (hfind : findOne (fun e => e.id == id) s.events = some e)
    (hown : e.user = uid)
    (hcat : ∀ v, body.categoryId = some v →
      ∃ cid c, v = .objectId cid ∧
        findOne (fun c => c.id == cid) s.categories = some c ∧ c.user = uid) :
    ∃ g : Option Id → Option Id,
      putEvent uid id body s
        = (⟨200, .populated ((findOneAndUpdate (fun e => e.id == id)
              (Event.update body g) s.events).1.map (populate s.categories))⟩,
            { s with events := (findOneAndUpdate (fun e => e.id == id)
              (Event.update body g) s.events).2 }) ∧
      (∀ cid, body.categoryId = some (.objectId cid) → ∀ x, g x = some cid) ∧
      (body.categoryId = none → ∀ x, g x = x) := by
  cases hc : body.categoryId with
  | none =>
    refine ⟨fun previous => previous, ?_, fun cid h => by simp at h, fun _ _ => rfl⟩
    simp [putEvent, hfind, hown, hc, truthy, updateEvent, castCategoryUpdate]
  | some v =>
    obtain ⟨cid, c, hv, hfc, hcu⟩ := hcat v hc
    subst hv
    refine ⟨fun _ => some cid, ?_, ?_, fun h => by simp at h⟩
    · simp [putEvent, hfind, hown, hc, truthy, ownedCategory, castObjectId, hfc, hcu,
        updateEvent, castCategoryUpdate]
    · intro cid' h x
      have : cid = cid' := by simpa using h
      simp [this]

/-- C8. For a stored event `:id` of the authenticated user and a body whose
`categoryId`, when supplied, is the identifier of a category of that user,
`PUT /api/events/:id` answers 200 with the populated form of the updated event
`e'`, which is the stored event `:id` afterwards: each of `name`,
`description`, `date`, `time`, `categoryId` that the body supplies is the
value of `e'`, each one it omits is as in the event before, the other paths
of the event and every other stored document are untouched. -/
theorem putEvent_partial_update (s : Store) (uid id : Id) (body : Body) (e : Event)
    (hfind : findOne (fun e => e.id == id) s.events = some e)
    (hown : e.user = uid)
    (hcat : ∀ v, body.categoryId = some v →
      ∃ cid c, v = .objectId cid ∧
        findOne (fun c => c.id == cid) s.categories = some c ∧ c.user = uid) :
    ∃ (e' : Event) (events' : List Event),
      putEvent uid id body s
        = (⟨200, .populated (some (populate s.categories e'))⟩,
            { s with events := events' }) ∧
      findOne (fun e => e.id == id) events' = some e' ∧
      ((∀ v, body.name = some v → e'.name = v) ∧
        (body.name = none → e'.name = e.name)) ∧
      ((∀ v, body.description = some v → e'.description = some v) ∧
        (body.description = none → e'.description = e.description)) ∧
      ((∀ v, body.date = some v → e'.date = v) ∧
        (body.date = none → e'.date = e.date)) ∧
      ((∀ v, body.time = some v → e'.time = v) ∧
        (body.time = none → e'.time = e.time)) ∧
      ((∀ cid, body.categoryId = some (.objectId cid) → e'.category = some cid) ∧
        (body.categoryId = none → e'.category = e.category)) ∧
      (e'.id = e.id ∧ e'.user = e.user ∧ e'.createdAt = e.createdAt) ∧
      events'.length = s.events.length ∧
      (∀ x : Event, x.id ≠ id → (x ∈ events' ↔ x ∈ s.events)) := by
  obtain ⟨g, hput, hgset, hgkeep⟩ := putEvent_of_owned s uid id body e hfind hown hcat
  have hkeep : ∀ x : Event,
      (fun e : Event => e.id == id) (Event.update body g x)
        = (fun e : Event => e.id == id) x :=
    fun _ => rfl
  refine ⟨Event.update body g e,
    (findOneAndUpdate (fun e => e.id == id) (Event.update body g) s.events).2,
    ?_, ?_, ?_, ?_, ?_, ?_, ?_, ⟨rfl, rfl, rfl⟩, ?_, ?_⟩
  · rw [hput, findOneAndUpdate_fst, hfind]
    rfl
  · rw [findOne_findOneAndUpdate _ _ hkeep, hfind]
    rfl
  · exact ⟨fun v hv => by simp [Event.update, hv], fun hv => by simp [Event.update, hv]⟩
  · exact ⟨fun v hv => by simp [Event.update, hv], fun hv => by simp [Event.update, hv]⟩
  · exact ⟨fun v hv => by simp [Event.update, hv], fun hv => by simp [Event.update, hv]⟩
  · exact ⟨fun v hv => by simp [Event.update, hv], fun hv => by simp [Event.update, hv]⟩
  · exact ⟨fun cid hv => hgset cid hv e.category, fun hv => hgkeep hv e.category⟩
  · exact findOneAndUpdate_length _ _ _
  · intro x hx
    constructor
    · intro hmem
      rcases mem_findOneAndUpdate _ _ _ x hmem with h | ⟨z, hz, hxz⟩
      · exact h
      · have hzid : z.id = id := by simpa using (findOne_some_mem _ _ _ hz).2
        have hxid : x.id = z.id := by rw [hxz]; rfl
        exact absurd (hxid.trans hzid) hx
    · intro hmem
      rcases mem_findOneAndUpdate_of_mem (fun e : Event => e.id == id)
          (Event.update body g) _ x hmem with h | ⟨h, _⟩
      · exact h
      · exact absurd (by simpa using h) hx

/-- C8 at `sampleStore`: user 1 renames event 100 and names category 10 again;
description, date and time stay. -/
theorem putEvent_partial_update_witness :
    ∃ (e' : Event) (events' : List Event),
      putEvent 1 100
          { Body.none with name := some "Retro", categoryId := some (.objectId 10) }
          sampleStore
        = (⟨200, .populated (some (populate sampleStore.categories e'))⟩,
            { sampleStore with events := events' }) ∧
      findOne (fun e => e.id == 100) events' = some e' ∧
      e'.name = "Retro" ∧ e'.description = some "quarterly" ∧ e'.date = 1704412800 ∧
      e'.time = "10:00" ∧ e'.category = some 10 := by
  obtain ⟨e', events', hput, hstored, hname, hdescr, hdate, htime, hcat, _⟩ :=
    putEvent_partial_update sampleStore 1 100
      { Body.none with name := some "Retro", categoryId := some (.objectId 10) }
      ⟨100, "Review", some "quarterly", 1704412800, "10:00", some 10, 1, 50⟩
      (by decide) rfl
      (fun v hv => ⟨10, ⟨10, "Work", 1, 30⟩, by
        have h10 : IdValue.objectId 10 = v := by simpa [Body.none] using hv
        subst h10
        exact ⟨rfl, by decide, rfl⟩⟩)
  exact ⟨e', events', hput, hstored, hname.1 _ rfl, hdescr.2 rfl, hdate.2 rfl,
    htime.2 rfl, hcat.1 _ rfl⟩

/-! ## C9: events and the categories they reference -/

theorem ownedCategory_some (categoryId : Option IdValue) (uid : Id) (cs : List Category)
    (c : Category) (h : ownedCategory categoryId uid cs = .ok (some c)) :
    c ∈ cs ∧ categoryId = some (.objectId c.id) ∧ c.user = uid := by
  unfold ownedCategory at h
  cases hcid : categoryId with
  | none => simp [hcid] at h
  | some v =>
    cases v with
    | null => simp [hcid, castObjectId] at h
    | invalid raw => simp [hcid, castObjectId] at h
    | objectId cid =>
      cases hf : findOne (fun c => c.id == cid) cs with
      | none => simp [hcid, castObjectId, hf] at h
      | some c' =>
        by_cases hu : c'.user = uid
        · simp only [hcid, castObjectId, hf, hu, ne_eq, not_true_eq_false, if_false,
            Except.ok.injEq, Option.some.injEq] at h
          subst h
          obtain ⟨hmem, hid⟩ := findOne_some_mem _ _ _ hf
          have hid' : c'.id = cid := by simpa using hid
          exact ⟨hmem, by rw [hid'], hu⟩
        · simp [hcid, castObjectId, hf, hu] at h

theorem categoryRefsOwned_of_same (s s' : Store) (he : s'.events = s.events)
    (hc : s'.categories = s.categories) (h : categoryRefsOwned s) :
    categoryRefsOwned s' := by
  unfold categoryRefsOwned at h ⊢
  rw [he, hc]
  exact h

theorem saveUser_frame (env : Env) (body : Body) (s s' : Store) (u : User)
    (h : saveUser env body s = some (u, s')) :
    s'.events = s.events ∧ s'.categories = s.categories := by
  unfold saveUser at h
  split at h
  · split at h
    · simp at h
    · simp only [Option.some.injEq, Prod.mk.injEq] at h
      obtain ⟨_, rfl⟩ := h
      exact ⟨rfl, rfl⟩
  · simp at h

theorem categoryRefsOwned_postAuthRegister (env : Env) (body : Body) (s : Store)
    (h : categoryRefsOwned s) : categoryRefsOwned (postAuthRegister env body s).2 := by
  unfold postAuthRegister
  cases findUserByEmail body.email s.users with
  | some _ => exact h
  | none =>
    cases hsave : saveUser env body s with
    | none => exact h
    | some r =>
      obtain ⟨he, hc⟩ := saveUser_frame env body s r.2 r.1 hsave
      exact categoryRefsOwned_of_same s r.2 he hc h

theorem categoryRefsOwned_postAuthLogin (env : Env) (body : Body) (s : Store)
    (h : categoryRefsOwned s) : categoryRefsOwned (postAuthLogin env body s).2 := by
  unfold postAuthLogin
  cases findUserByEmail body.email s.users with
  | none => exact h
  | some user =>
    cases body.password with
    | none => exact h
    | some password =>
      dsimp only
      split <;> exact h

theorem categoryRefsOwned_postCategories (env : Env) (uid : Id) (body : Body) (s : Store)
    (h : categoryRefsOwned s) : categoryRefsOwned (postCategories env uid body s).2 := by
  unfold postCategories
  cases findCategoryByName body.name uid s.categories with
  | some _ => exact h
  | none =>
    unfold saveCategory
    cases requiredString body.name with
    | none => exact h
    | some name =>
      intro e he
      obtain ⟨c, hc, hid, hu⟩ := h e he
      exact ⟨c, List.mem_append_left _ hc, hid, hu⟩

theorem categoryRefsOwned_putCategory (uid id : Id) (body : Body) (s : Store)
    (h : categoryRefsOwned s) : categoryRefsOwned (putCategory uid id body s).2 := by
  unfold putCategory
  cases findOne (fun c => c.id == id) s.categories with
  | none => exact h
  | some category =>
    by_cases hu : category.user = uid
    · simp only [hu, ne_eq, not_true_eq_false, if_false]
      intro e he
      obtain ⟨c, hc, hid, hcu⟩ := h e he
      rcases mem_findOneAndUpdate_of_mem (fun c : Category => c.id == id)
          (Category.update body) s.categories c hc with hmem | ⟨_, hmem⟩
      · exact ⟨c, hmem, hid, hcu⟩
      · exact ⟨Category.update body c, hmem, hid, hcu⟩
    · simp only [ne_eq, hu, not_false_eq_true, if_true]
      exact h

theorem categoryRefsOwned_deleteCategory (uid id : Id) (s : Store)
    (h : categoryRefsOwned s) (hfree : ∀ e ∈ s.events, e.category ≠ some id) :
    categoryRefsOwned (deleteCategory uid id s).2 := by
  unfold deleteCategory
  cases findOne (fun c => c.id == id) s.categories with
  | none => exact h
  | some category =>
    by_cases hu : category.user = uid
    · simp only [hu, ne_eq, not_true_eq_false, if_false]
      intro e he
      obtain ⟨c, hc, hid, hcu⟩ := h e he
      refine ⟨c, mem_findOneAndRemove_of_mem _ _ c hc ?_, hid, hcu⟩
      have hne : c.id ≠ id := fun hcid => hfree e he (by rw [← hid, hcid])
      simpa using hne
    · simp only [ne_eq, hu, not_false_eq_true, if_true]
      exact h

theorem categoryRefsOwned_postEvents (env : Env) (uid : Id) (body : Body) (s : Store)
    (h : categoryRefsOwned s) : categoryRefsOwned (postEvents env uid body s).2 := by
  unfold postEvents
  cases hown : ownedCategory body.categoryId uid s.categories with
  | error err => exact h
  | ok found =>
    cases found with
    | none => exact h
    | some c =>
      obtain ⟨hc, hcid, hcu⟩ := ownedCategory_some _ _ _ _ hown
      unfold saveEvent
      cases requiredString body.name with
      | none => exact h
      | some name =>
        cases body.date with
        | none => exact h
        | some date =>
          cases requiredString body.time with
          | none => exact h
          | some time =>
            simp only [hcid]
            intro e he
            rcases List.mem_append.1 he with he | he
            · obtain ⟨c', hc', hid, hu⟩ := h e he
              exact ⟨c', hc', hid, hu⟩
            · have hnew : e = ⟨s.nextId, name, body.description, date, time, some c.id,
                  uid, env.now⟩ := by simpa using he
              subst hnew
              exact ⟨c, hc, rfl, hcu⟩

theorem categoryRefsOwned_updateEvent (id : Id) (body : Body) (s : Store)
    (h : categoryRefsOwned s)
    (hg : ∀ g e, castCategoryUpdate body.categoryId = .ok g →
      findOne (fun e => e.id == id) s.events = some e →
      ∃ c ∈ s.categories, some c.id = g e.category ∧ c.user = e.user) :
    categoryRefsOwned (updateEvent id body s).2 := by
  unfold updateEvent
  cases hcast : castCategoryUpdate body.categoryId with
  | error err => exact h
  | ok g =>
    intro y hy
    rcases mem_findOneAndUpdate _ _ _ y hy with hmem | ⟨x, hx, hyx⟩
    · exact h y hmem
    · obtain ⟨c, hc, hid, hcu⟩ := hg g x hcast hx
      subst hyx
      exact ⟨c, hc, hid, hcu⟩

theorem categoryRefsOwned_putEvent (uid id : Id) (body : Body) (s : Store)
    (h : categoryRefsOwned s) (hnull : body.categoryId ≠ some .null) :
    categoryRefsOwned (putEvent uid id body s).2 := by
  unfold putEvent
  cases hfind : findOne (fun e => e.id == id) s.events with
  | none => exact h
  | some event =>
    by_cases hu : event.user = uid
    · simp only [hu, ne_eq, not_true_eq_false, if_false]
      cases hcid : body.categoryId with
      | none =>
        simp only [truthy, Bool.false_eq_true, if_false]
        refine categoryRefsOwned_updateEvent id body s h ?_
        intro g e hcast he
        rw [hcid] at hcast
        have hgid : (fun previous : Option Id => previous) = g := by
          simpa [castCategoryUpdate] using hcast
        subst hgid
        exact h e (findOne_some_mem _ _ _ he).1
      | some v =>
        cases v with
        | null => exact absurd hcid hnull
        | invalid raw =>
          have hcast : castCategoryUpdate (some (IdValue.invalid raw))
              = .error "CastError" := rfl
          have hupd : updateEvent id body s = (serverError, s) := by
            simp [updateEvent, hcid, hcast]
          have hownd : ownedCategory (some (IdValue.invalid raw)) uid s.categories
              = .error "CastError" := rfl
          rw [hupd, hownd]
          split <;> exact h
        | objectId cid =>
          simp only [truthy, if_true]
          cases hown : ownedCategory (some (IdValue.objectId cid)) uid s.categories with
          | error err => exact h
          | ok found =>
            cases found with
            | none => exact h
            | some c =>
              obtain ⟨hc, hcid', hcu⟩ := ownedCategory_some _ _ _ _ hown
              have hcc : cid = c.id := by simpa using hcid'
              refine categoryRefsOwned_updateEvent id body s h ?_
              intro g e hcast he
              rw [hcid] at hcast
              have hgid : (fun _ : Option Id => some cid) = g := by
                simpa [castCategoryUpdate, castObjectId] using hcast
              subst hgid
              rw [hfind] at he
              have hev : event = e := by simpa using he
              subst hev
              exact ⟨c, hc, by rw [hcc], by rw [hcu, hu]⟩
    · simp only [ne_eq, hu, not_false_eq_true, if_true]
      exact h

theorem categoryRefsOwned_deleteEvent (uid id : Id) (s : Store)
    (h : categoryRefsOwned s) : categoryRefsOwned (deleteEvent uid id s).2 := by
  unfold deleteEvent
  cases findOne (fun e => e.id == id) s.events with
  | none => exact h
  | some event =>
    by_cases hu : event.user = uid
    · simp only [hu, ne_eq, not_true_eq_false, if_false]
      intro e he
      exact h e (mem_of_mem_findOneAndRemove _ _ e he)
    · simp only [ne_eq, hu, not_false_eq_true, if_true]
      exact h

theorem categoryRefsOwned_auth (env : Env) (req : Request) (s : Store)
    (next : Id → Store → Response × Store) (h : categoryRefsOwned s)
    (hnext : ∀ uid, categoryRefsOwned (next uid s).2) :
    categoryRefsOwned (auth env req s next).2 := by
  unfold auth
  cases req.token with
  | none => exact h
  | some token =>
    dsimp only
    cases jwtVerify token JWT_SECRET env.now with
    | none => exact h
    | some uid => exact hnext uid

/-- C9 as stated fails: `sampleStore` satisfies the predicate, user 1 deletes
their category 10, the answer is 200 `Category removed`, and event 100 then
references a category that is not stored. -/
theorem deleteCategory_breaks_categoryRefsOwned :
    categoryRefsOwned sampleStore ∧
    (deleteCategory 1 10 sampleStore).1 = ⟨200, .msg "Category removed"⟩ ∧
    ¬ categoryRefsOwned (deleteCategory 1 10 sampleStore).2 := by
  decide

/-- The case the amended C9 leaves out: the test `if (categoryId)` is false
for `null`, the owner test is skipped and the update stores `null` in
`category`; user 1 does so on their event 100 and the predicate no longer holds. -/
theorem putEvent_null_categoryId_unchecked :
    (putEvent 1 100 { Body.none with categoryId := some .null } sampleStore).1.status = 200 ∧
    (findOne (fun e => e.id == 100)
      (putEvent 1 100 { Body.none with categoryId := some .null } sampleStore).2.events).map
        (fun e => e.category) = some none ∧
    ¬ categoryRefsOwned
      (putEvent 1 100 { Body.none with categoryId := some .null } sampleStore).2 := by
  decide

/-- C9 amended. The predicate holds in the empty store and, from a store
where it holds, after category create and update, after event create and
delete, after an event update whose `categoryId` is not `null`, after
`DELETE /api/categories/:id` when no stored event references the category
`:id`, and, under the same two conditions, after every route of `app`
(register and login included), for every request and user. -/
theorem categoryRefsOwned_invariant (env : Env) (s : Store) (uid id : Id) (body : Body)
    (h : categoryRefsOwned s) :
    categoryRefsOwned Store.empty ∧
    categoryRefsOwned (postCategories env uid body s).2 ∧
    categoryRefsOwned (putCategory uid id body s).2 ∧
    ((∀ e ∈ s.events, e.category ≠ some id) →
      categoryRefsOwned (deleteCategory uid id s).2) ∧
    categoryRefsOwned (postEvents env uid body s).2 ∧
    (body.categoryId ≠ some .null → categoryRefsOwned (putEvent uid id body s).2) ∧
    categoryRefsOwned (deleteEvent uid id s).2 ∧
    (∀ (route : Route) (req : Request),
      (∀ cid, route = .deleteCategory cid → ∀ e ∈ s.events, e.category ≠ some cid) →
      (∀ eid, route = .putEvent eid → req.body.categoryId ≠ some .null) →
      categoryRefsOwned (app env route req s).2) := by
  refine ⟨?_, categoryRefsOwned_postCategories env uid body s h,
    categoryRefsOwned_putCategory uid id body s h,
    categoryRefsOwned_deleteCategory uid id s h,
    categoryRefsOwned_postEvents env uid body s h,
    categoryRefsOwned_putEvent uid id body s h,
    categoryRefsOwned_deleteEvent uid id s h, ?_⟩
  · intro e he
    simp [Store.empty] at he
  · intro route req hfree hnull
    cases route with
    | root => exact h
    | postAuthRegister => exact categoryRefsOwned_postAuthRegister env req.body s h
    | postAuthLogin => exact categoryRefsOwned_postAuthLogin env req.body s h
    | getAuthMe => exact categoryRefsOwned_auth env req s _ h (fun _ => h)
    | postCategories =>
      exact categoryRefsOwned_auth env req s _ h
        (fun u => categoryRefsOwned_postCategories env u req.body s h)
    | getCategories => exact categoryRefsOwned_auth env req s _ h (fun _ => h)
    | putCategory cid =>
      exact categoryRefsOwned_auth env req s _ h
        (fun u => categoryRefsOwned_putCategory u cid req.body s h)
    | deleteCategory cid =>
      exact categoryRefsOwned_auth env req s _ h
        (fun u => categoryRefsOwned_deleteCategory u cid s h (hfree cid rfl))
    | postEvents =>
      exact categoryRefsOwned_auth env req s _ h
        (fun u => categoryRefsOwned_postEvents env u req.body s h)
    | getEvents => exact categoryRefsOwned_auth env req s _ h (fun _ => h)
    | getEventsByCategory cid =>
      refine categoryRefsOwned_auth env req s _ h (fun u => ?_)
      unfold getEventsByCategory
      split <;> exact h
    | putEvent eid =>
      exact categoryRefsOwned_auth env req s _ h
        (fun u => categoryRefsOwned_putEvent u eid req.body s h (hnull eid rfl))
    | deleteEvent eid =>
      exact categoryRefsOwned_auth env req s _ h
        (fun u => categoryRefsOwned_deleteEvent u eid s h)

/-- C9 amended at `sampleStore`: the predicate holds there, after user 1
renames event 100, after user 1 deletes event 100, and after user 1 then
deletes category 10, which no stored event references any more. -/
theorem categoryRefsOwned_invariant_witness :
    categoryRefsOwned sampleStore ∧
    categoryRefsOwned
      (putEvent 1 100 { Body.none with name := some "Retro" } sampleStore).2 ∧
    categoryRefsOwned (deleteEvent 1 100 sampleStore).2 ∧
    categoryRefsOwned (deleteCategory 1 10 (deleteEvent 1 100 sampleStore).2).2 :=
  ⟨by decide,
   (categoryRefsOwned_invariant sampleEnv sampleStore 1 100
      { Body.none with name := some "Retro" } (by decide)).2.2.2.2.2.1 (by decide),
   (categoryRefsOwned_invariant sampleEnv sampleStore 1 100
      { Body.none with name := some "Retro" } (by decide)).2.2.2.2.2.2.1,
   (categoryRefsOwned_invariant sampleEnv (deleteEvent 1 100 sampleStore).2 1 10
      Body.none (by decide)).2.2.2.1 (by decide)⟩

end EventPlanner
